import Mathlib

/-!
Verification development for the `dcgmi` diagnostic orchestrator
(`src/dcgmi/Diag.cpp`).  The definitions below are a shallow embedding of the
data model and the functions of that file; the theorems settle the claims of the
spec about them.

Conventions of the embedding:
* C++ fixed-capacity arrays become Lean lists; a `for (i = 0; i < N; i++)`
  scan over a fixed array becomes structural recursion / a fold over the list.
* C++ `std::string` becomes `List Char`.
* early `return` inside a scan is modelled with `Except`, where `.error`
  carries the early-returned value.
* the external error-code→priority lookup (`dcgmErrorGetPriorityByCode`) is a
  parameter `iso : Nat → Bool` telling whether a code resolves to the
  `DCGM_ERROR_ISOLATE` tier.
-/

/-- Status of one test cell, the closed enumeration `dcgmDiagResult_t`
(`{not-run, pass, warn, fail, skip}`). -/
inductive DcgmDiagResult where
  | notRun
  | pass
  | warn
  | fail
  | skip
deriving DecidableEq, Repr

/-- The `dcgmReturn_t` codes that `Diag.cpp` distinguishes; every other code
is carried by `other`. -/
inductive DcgmReturn where
  | ok
  | nvvsError
  | nvvsIsolateError
  | nvvsKilled
  | groupIncompatible
  | notSupported
  | paused
  | timeout
  | other (n : Nat)
deriving DecidableEq, Repr

/-- The `DCGM_MAX_NUM_DEVICES`: capacity of the per-GPU slot array, also used as
the sentinel "unused slot" GPU id.  The numeric value comes from
`dcgm_structs.h` (not under `src/`); the claims only rely on it being the
fixed capacity/sentinel, as the spec describes. -/
def DCGM_MAX_NUM_DEVICES : Nat := 32

/-- The `DCGM_MAX_ERRORS`: fixed number of error slots per test cell
(`dcgm_structs.h`, not under `src/`). -/
def DCGM_MAX_ERRORS : Nat := 5

/-- The `DCGM_PER_GPU_TEST_COUNT_V8`: width of the per-GPU test result array
(`dcgm_structs.h`, not under `src/`). -/
def DCGM_PER_GPU_TEST_COUNT_V8 : Nat := 13

/-- The `DCGM_MEMORY_INDEX` (`dcgm_structs.h`). -/
def DCGM_MEMORY_INDEX : Nat := 0

/-- The `DCGM_CONTEXT_CREATE_INDEX` (`dcgm_structs.h`): the out-of-band test index
that `HelperDisplayGpuResults` remaps to slot 0. -/
def DCGM_CONTEXT_CREATE_INDEX : Nat := 11

/-- One structured error record of a test cell (`dcgmDiagErrorDetail`-style
entry: message and error code; the code is what the priority lookup takes). -/
structure DcgmDiagError where
  code : Nat
  msg : List Char
deriving DecidableEq, Repr

/-- One (GPU, test) or level-one cell: `dcgmDiagTestResult_v3`. -/
structure DcgmDiagTestResult where
  status : DcgmDiagResult
  error : List DcgmDiagError
  info : List Char
deriving DecidableEq, Repr

/-- Per-GPU slot of the response: `dcgmDiagResponsePerGpu_v5`. -/
structure DcgmDiagResponsePerGpu where
  gpuId : Nat
  results : List DcgmDiagTestResult
deriving DecidableEq, Repr

/-- The response record `dcgmDiagResponse_t`, restricted to the fields the
embedded functions read. -/
structure DcgmDiagResponse where
  gpuCount : Nat
  levelOneTestCount : Nat
  levelOneResults : List DcgmDiagTestResult
  perGpuResponses : List DcgmDiagResponsePerGpu
  systemErrorMsg : List Char
deriving DecidableEq, Repr

/-- A blank test cell (used as the out-of-bounds default of list indexing;
the C++ reads through raw pointers instead). -/
def defaultTestResult : DcgmDiagTestResult :=
  { status := .notRun, error := [], info := [] }

/-- A blank per-GPU slot. -/
def defaultPerGpu : DcgmDiagResponsePerGpu :=
  { gpuId := DCGM_MAX_NUM_DEVICES, results := [] }

/-- The run request `dcgmRunDiag_t`, restricted to the fields the embedded
functions read. -/
structure DcgmRunDiag where
  gpuList : List Char
  currentIteration : Nat
  totalIterations : Nat
deriving DecidableEq, Repr

/-! Embedding of `Diag::isWhitespace` and `Diag::Sanitize` -/

/-- The `Diag::isWhitespace`: space, newline, tab, carriage return, form feed. -/
def isWhitespace (c : Char) : Bool :=
  c = ' ' || c = '\n' || c = '\t' || c = '\r' || c = Char.ofNat 12

/-- The literal `"***"` delimiter of `Diag::Sanitize`. -/
def sanitizeDelim : List Char := ['*', '*', '*']

/-- The `std::string::find` for a pattern: index of the first occurrence of
`pat` as a contiguous substring of `s`, or `none`. -/
def findSubstr (pat : List Char) : List Char → Option Nat
  | [] => if pat = [] then some 0 else none
  | c :: rest =>
    if pat.isPrefixOf (c :: rest) then some 0
    else (findSubstr pat rest).map (· + 1)

/-- The `Diag::Sanitize`: cut everything up to and including the first `"***"`
(if present), then erase trailing whitespace, then skip leading whitespace.
The two trim loops of the source are `dropWhile` at the back (via `reverse`)
and at the front; the `size() > 0` guard of the leading loop is subsumed by
`dropWhile` running off the end of the list. -/
def sanitize (toOutput : List Char) : List Char :=
  let sanitized :=
    match findSubstr sanitizeDelim toOutput with
    | some pos => toOutput.drop (pos + 3)
    | none => toOutput
  let noTrailing := (sanitized.reverse.dropWhile isWhitespace).reverse
  noTrailing.dropWhile isWhitespace

/-- Index of the last occurrence of `pat` as a contiguous substring of `s`,
or `none`.  Used only to state the last-occurrence reading of the claim. -/
def findLastSubstr (pat s : List Char) : Option Nat :=
  ((List.range (s.length + 1)).filter (fun i => pat.isPrefixOf (s.drop i))).getLast?

/-- Removing leading, then trailing whitespace (the reading the spec gives of
"trimmed of leading/trailing whitespace"; the source trims in the
opposite order, the two agree by `sanitize_eq_first_occurrence_spec`). -/
def trimWhitespace (s : List Char) : List Char :=
  ((s.dropWhile isWhitespace).reverse.dropWhile isWhitespace).reverse

/-- Follows the words of the claim (C5 as frozen): the substring after the LAST
occurrence of the `"***"` delimiter when present (the whole string
otherwise), trimmed of leading and trailing whitespace. -/
def sanitizeLastSpec (s : List Char) : List Char :=
  let tail :=
    match findLastSubstr sanitizeDelim s with
    | some pos => s.drop (pos + 3)
    | none => s
  trimWhitespace tail

/-- Follows the words of the amended claim: the substring after the FIRST
occurrence of the `"***"` delimiter when present (the whole string
otherwise), trimmed of leading and trailing whitespace. -/
def sanitizeFirstSpec (s : List Char) : List Char :=
  let tail :=
    match findSubstr sanitizeDelim s with
    | some pos => s.drop (pos + 3)
    | none => s
  trimWhitespace tail

/-! Embedding of `Diag::DisplayVerboseInfo` -/

/-- The `DATA_INFO_TAG_LEN`: character budget of the value column. -/
def DATA_INFO_TAG_LEN : Nat := 45

/-- The sequence of line fragments `Diag::DisplayVerboseInfo` emits for one
message: the loop `for (pos = 0; pos < info.size(); pos += 45)` prints
`info.substr(pos, 45)` each round. -/
def displayVerboseInfoChunks (info : List Char) : List (List Char) :=
  if h : info = [] then []
  else info.take DATA_INFO_TAG_LEN :: displayVerboseInfoChunks (info.drop DATA_INFO_TAG_LEN)
termination_by info.length
decreasing_by
  simp only [List.length_drop, DATA_INFO_TAG_LEN]
  have hpos : 0 < info.length := List.length_pos.mpr h
  omega

/-! Embedding of `Diag::HelperDisplayDiagResult` and the status strings of the two renderers -/

/-- The `Diag::HelperDisplayDiagResult`: the status-to-string mapping shared by
the text and JSON renderers. -/
def helperDisplayDiagResult (val : DcgmDiagResult) : String :=
  if val = .pass then "Pass"
  else if val = .skip then "Skip"
  else "Fail"

/-- The status string `Diag::HelperDisplayDeploymentResult` (text renderer)
prints for a level-one cell: nothing when the cell is `NOT_RUN`, otherwise
`HelperDisplayDiagResult` of its status. -/
def helperDisplayDeploymentResultStatus (result : DcgmDiagTestResult) : Option String :=
  if result.status = .notRun then none
  else some (helperDisplayDiagResult result.status)

/-- The status string `Diag::HelperJsonAddResult` (JSON renderer) records for
a per-GPU cell: no entry when the cell is `NOT_RUN` (the function returns
`false` without recording), otherwise `HelperDisplayDiagResult` of its
status. -/
def helperJsonAddResultStatus (result : DcgmDiagTestResult) : Option String :=
  if result.status = .notRun then none
  else some (helperDisplayDiagResult result.status)

/-! Embedding of `Diag::GetFailureResult` -/

/-- Inner loop of `Diag::GetFailureResult` over the `DCGM_MAX_ERRORS` error
slots of one failing cell: an isolate-priority code returns
`DCGM_ST_NVVS_ISOLATE_ERROR` from the whole function (modelled as `.error`),
any other slot downgrades the running result to `DCGM_ST_NVVS_ERROR`. -/
def errorSlotLoop (iso : Nat → Bool) : List DcgmDiagError → DcgmReturn →
    Except DcgmReturn DcgmReturn
  | [], ret => .ok ret
  | e :: rest, _ =>
    if iso e.code then .error .nvvsIsolateError
    else errorSlotLoop iso rest .nvvsError

/-- Scan of `Diag::GetFailureResult` over a row of cells: each cell with
`DCGM_DIAG_RESULT_FAIL` status runs `errorSlotLoop` on its error slots. -/
def cellScanLoop (iso : Nat → Bool) : List DcgmDiagTestResult → DcgmReturn →
    Except DcgmReturn DcgmReturn
  | [], ret => .ok ret
  | c :: rest, ret =>
    if c.status = .fail then
      match errorSlotLoop iso c.error ret with
      | .error e => .error e
      | .ok ret2 => cellScanLoop iso rest ret2
    else cellScanLoop iso rest ret

/-- Scan of `Diag::GetFailureResult` over the test row of every per-GPU slot. -/
def perGpuScanLoop (iso : Nat → Bool) : List DcgmDiagResponsePerGpu → DcgmReturn →
    Except DcgmReturn DcgmReturn
  | [], ret => .ok ret
  | g :: rest, ret =>
    match cellScanLoop iso g.results ret with
    | .error e => .error e
    | .ok ret2 => perGpuScanLoop iso rest ret2

/-- The `Diag::GetFailureResult`: scans the level-one results (up to
`levelOneTestCount`), then every per-GPU cell; an isolate-priority error on a
failing cell returns `DCGM_ST_NVVS_ISOLATE_ERROR` immediately, otherwise any
failing cell leaves `DCGM_ST_NVVS_ERROR`, otherwise `DCGM_ST_OK`. -/
def getFailureResult (iso : Nat → Bool) (diagResult : DcgmDiagResponse) : DcgmReturn :=
  match cellScanLoop iso (diagResult.levelOneResults.take diagResult.levelOneTestCount) .ok with
  | .error e => e
  | .ok ret1 =>
    match perGpuScanLoop iso diagResult.perGpuResponses ret1 with
    | .error e => e
    | .ok ret2 => ret2

/-- A cell counts toward isolate classification when it failed and one of its
error slots resolves to the isolate tier. -/
def cellHasIsolate (iso : Nat → Bool) (c : DcgmDiagTestResult) : Bool :=
  c.status = .fail && c.error.any (fun e => iso e.code)

/-- Some scanned cell of the response (level-one within the declared count,
or any per-GPU cell) has a failing status with an isolate-tier error. -/
def respHasIsolate (iso : Nat → Bool) (r : DcgmDiagResponse) : Bool :=
  (r.levelOneResults.take r.levelOneTestCount).any (cellHasIsolate iso)
    || r.perGpuResponses.any (fun g => g.results.any (cellHasIsolate iso))

/-- Some scanned cell of the response has a failing status. -/
def respHasFailure (r : DcgmDiagResponse) : Bool :=
  (r.levelOneResults.take r.levelOneTestCount).any (fun c => c.status = .fail)
    || r.perGpuResponses.any (fun g => g.results.any (fun c => c.status = .fail))

/-- Well-formedness of the fixed-shape response: every error array of a
scanned cell has exactly `DCGM_MAX_ERRORS` slots, as in the C struct. -/
def DiagResponseWf (r : DcgmDiagResponse) : Prop :=
  (∀ c ∈ r.levelOneResults, c.error.length = DCGM_MAX_ERRORS)
    ∧ ∀ g ∈ r.perGpuResponses, ∀ c ∈ g.results, c.error.length = DCGM_MAX_ERRORS

instance (r : DcgmDiagResponse) : Decidable (DiagResponseWf r) := by
  unfold DiagResponseWf; infer_instance

/-! Embedding of `Diag::InitializeDiagResponse` and `Diag::PopulateGpuList` -/

/-- The `Diag::InitializeDiagResponse`: a zeroed response whose per-GPU slot ids
are all set to the sentinel `DCGM_MAX_NUM_DEVICES`. -/
def initializeDiagResponse : DcgmDiagResponse :=
  { gpuCount := 0
    levelOneTestCount := 0
    levelOneResults := []
    perGpuResponses := List.replicate DCGM_MAX_NUM_DEVICES
      { gpuId := DCGM_MAX_NUM_DEVICES
        results := List.replicate DCGM_PER_GPU_TEST_COUNT_V8 defaultTestResult }
    systemErrorMsg := [] }

/-- The `someTestRan` check of `Diag::PopulateGpuList`: some result slot of
the per-GPU row has a status other than `DCGM_DIAG_RESULT_NOT_RUN`. -/
def someTestRan (g : DcgmDiagResponsePerGpu) : Bool :=
  g.results.any (fun r => r.status ≠ .notRun)

/-- Loop body of `Diag::PopulateGpuList`: walk the slots in index order while
`gpuVec.size() < gpuCount`; a slot whose sentinel id was overwritten and
where some test ran is appended (by slot index). -/
def populateGpuListAux (gpuCount : Nat) : Nat → List DcgmDiagResponsePerGpu →
    List Nat → List Nat
  | _, [], gpuVec => gpuVec
  | i, g :: rest, gpuVec =>
    if gpuVec.length < gpuCount then
      let gpuVec2 :=
        if g.gpuId ≠ DCGM_MAX_NUM_DEVICES then
          (if someTestRan g then gpuVec ++ [i] else gpuVec)
        else gpuVec
      populateGpuListAux gpuCount (i + 1) rest gpuVec2
    else gpuVec

/-- The `Diag::PopulateGpuList`. -/
def populateGpuList (diagResult : DcgmDiagResponse) : List Nat :=
  populateGpuListAux diagResult.gpuCount 0 diagResult.perGpuResponses []

/-- Follows the words of the claim (C3 as frozen): the per-GPU slot indices whose
sentinel id was overwritten. -/
def overwrittenSlotIndices (diagResult : DcgmDiagResponse) : List Nat :=
  (List.range diagResult.perGpuResponses.length).filter
    (fun i => (diagResult.perGpuResponses.getD i defaultPerGpu).gpuId ≠ DCGM_MAX_NUM_DEVICES)

/-- The slot indices (counted from `i`) that `PopulateGpuList` is willing to
select: sentinel id overwritten and at least one test ran. -/
def selectedSlotsFrom : Nat → List DcgmDiagResponsePerGpu → List Nat
  | _, [] => []
  | i, g :: rest =>
    if g.gpuId ≠ DCGM_MAX_NUM_DEVICES ∧ someTestRan g then
      i :: selectedSlotsFrom (i + 1) rest
    else selectedSlotsFrom (i + 1) rest

/-- All selectable slot indices of a response, in increasing order. -/
def selectedSlotIndices (diagResult : DcgmDiagResponse) : List Nat :=
  selectedSlotsFrom 0 diagResult.perGpuResponses

/-! Embedding of `Diag::HelperDisplayGpuResults` bucketing -/

/-- The four per-test buckets built by `Diag::HelperDisplayGpuResults`
(each holds the `gpuId` fields pushed in input order). -/
structure GpuBuckets where
  passed : List Nat
  failed : List Nat
  skipped : List Nat
  warned : List Nat
deriving DecidableEq, Repr

/-- Status of one (GPU slot, test) cell as `HelperDisplayGpuResults` reads
it: `diagResults[gpuIndex].results[testIndex].status`. -/
def cellStatusAt (diagResults : List DcgmDiagResponsePerGpu) (testIndex gpuIndex : Nat) :
    DcgmDiagResult :=
  ((diagResults.getD gpuIndex defaultPerGpu).results.getD testIndex defaultTestResult).status

/-- The `gpuId` field of one per-GPU slot as `HelperDisplayGpuResults` reads
it. -/
def gpuIdAt (diagResults : List DcgmDiagResponsePerGpu) (gpuIndex : Nat) : Nat :=
  (diagResults.getD gpuIndex defaultPerGpu).gpuId

/-- One round of the bucketing loop of `Diag::HelperDisplayGpuResults`: the
GPU is pushed (`push_back` of its `gpuId`) onto the bucket matching its cell
status; a `NOT_RUN` cell matches no branch. -/
def bucketStep (diagResults : List DcgmDiagResponsePerGpu) (ti : Nat)
    (b : GpuBuckets) (gpuIndex : Nat) : GpuBuckets :=
  let st := cellStatusAt diagResults ti gpuIndex
  if st = .pass then { b with passed := b.passed ++ [gpuIdAt diagResults gpuIndex] }
  else if st = .skip then { b with skipped := b.skipped ++ [gpuIdAt diagResults gpuIndex] }
  else if st = .warn then { b with warned := b.warned ++ [gpuIdAt diagResults gpuIndex] }
  else if st = .fail then { b with failed := b.failed ++ [gpuIdAt diagResults gpuIndex] }
  else b

/-- The bucketing loop of `Diag::HelperDisplayGpuResults`: the context-create
index is remapped to slot 0, then every GPU of the input set runs
`bucketStep`. -/
def helperDisplayGpuResultsBuckets (testIndex : Nat)
    (diagResults : List DcgmDiagResponsePerGpu) (gpuIndices : List Nat) : GpuBuckets :=
  let ti := if testIndex = DCGM_CONTEXT_CREATE_INDEX then 0 else testIndex
  gpuIndices.foldl (bucketStep diagResults ti)
    { passed := [], failed := [], skipped := [], warned := [] }

/-! Embedding of `handle_signal_during_diag` and the poll loop of
`Diag::ExecuteDiagOnServer` -/

/-- The `handle_signal_during_diag`: the signal handler flips the cancellation
flag (`g_signalExit`) only when `diag_stopDiagOnSignal` ("armed") is set;
otherwise it leaves the flag untouched. -/
def handleSignalDuringDiag (stopDiagOnSignal signalExit : Bool) : Bool :=
  if stopDiagOnSignal then true else signalExit

/-- What the supervisor observes on one round of the 100 ms poll loop of
`Diag::ExecuteDiagOnServer`: the cancellation flag, whether the async
executor has exited, and the result it would report. -/
structure PollObservation where
  signalExit : Bool
  hasExited : Bool
  exitResult : DcgmReturn
deriving DecidableEq, Repr

/-- Default observation used by `List.getD` when indexing a trace. -/
def defaultPollObs : PollObservation :=
  { signalExit := false, hasExited := false, exitResult := .ok }

/-- Outcome of the poll loop: the reported return code (`none` when the
given trace ends before either exit condition fires) and the number of
abort requests (`AbortDiag::Execute`) issued. -/
structure PollOutcome where
  result : Option DcgmReturn
  abortCalls : Nat
deriving DecidableEq, Repr

/-- The `while (1)` poll loop of `Diag::ExecuteDiagOnServer` run over a trace
of observations: a true cancellation flag aborts the diagnostic (one
`AbortDiag` execution), stops the executor, and reports
`DCGM_ST_NVVS_KILLED`; otherwise an exited executor reports its own result;
otherwise the loop sleeps and polls again. -/
def executeDiagPollLoop : List PollObservation → PollOutcome
  | [] => { result := none, abortCalls := 0 }
  | o :: rest =>
    if o.signalExit then { result := some .nvvsKilled, abortCalls := 1 }
    else if o.hasExited then { result := some o.exitResult, abortCalls := 0 }
    else executeDiagPollLoop rest

/-! Embedding of `Diag::RunStartDiag` -/

/-- The iteration loop of `Diag::RunStartDiag` for `m_iterations > 1`:
`i` is the 0-based index of the next iteration, the second argument the
number of loop rounds still permitted.  `runOnce` is the outcome of
`Diag::RunDiagOnce` on the stamped request.  Returns the requests actually
dispatched (in order) and the overall return code: the loop stops at the
first non-OK result, which becomes `overallRet`. -/
def runStartDiagLoop (runOnce : DcgmRunDiag → DcgmReturn) (drd : DcgmRunDiag)
    (i : Nat) : Nat → List DcgmRunDiag × DcgmReturn
  | 0 => ([], .ok)
  | remaining + 1 =>
    let drd2 := { drd with currentIteration := i }
    let ret := runOnce drd2
    if ret = .ok then
      let res := runStartDiagLoop runOnce drd (i + 1) remaining
      (drd2 :: res.1, res.2)
    else ([drd2], ret)

/-- The `Diag::RunStartDiag`: for `m_iterations ≤ 1` it delegates to a single
`RunDiagOnce` on the unmodified request; otherwise it stamps
`totalIterations` once and `currentIteration` before each dispatch and runs
the stop-on-first-failure loop.  Returns the dispatched requests and the
overall return code. -/
def runStartDiag (runOnce : DcgmRunDiag → DcgmReturn) (iterations : Nat)
    (drd : DcgmRunDiag) : List DcgmRunDiag × DcgmReturn :=
  if iterations ≤ 1 then ([drd], runOnce drd)
  else
    let drd1 := { drd with totalIterations := iterations }
    runStartDiagLoop runOnce drd1 0 iterations

/-! Embedding of `Diag::RunDiagOnce` -/

/-- Modelled from the spec: parsing of the comma-separated GPU index filter
(`dcgmTokenizeString` + `strtol` live outside `src/`); each comma-separated
token is read as a leading decimal number. -/
def parseGpuList (s : List Char) : List Nat :=
  (s.splitOn ',').map
    (fun tok => (tok.takeWhile Char.isDigit).foldl (fun acc c => acc * 10 + (c.toNat - 48)) 0)

/-- The result path of `Diag::RunDiagOnce`, taking the outcome of
`ExecuteDiagOnServer` as input: the fixed-message rejections and every other
non-OK transport code return unchanged; an OK transport code with a
non-empty engine system-error message in text mode returns
`DCGM_ST_NVVS_ERROR`; otherwise the GPU working set is derived, the report
is emitted (both render paths leave the local `result` at `DCGM_ST_OK`) and
`GetFailureResult` gives the final classification. -/
def runDiagOnce (iso : Nat → Bool) (jsonOutput : Bool) (drd : DcgmRunDiag)
    (execResult : DcgmReturn) (diagResult : DcgmDiagResponse) : DcgmReturn :=
  if execResult = .groupIncompatible then execResult
  else if execResult = .notSupported then execResult
  else if execResult = .paused then execResult
  else if execResult ≠ .ok then execResult
  else if jsonOutput = false ∧ diagResult.systemErrorMsg ≠ [] then .nvvsError
  else
    let _gpuVec :=
      if drd.gpuList.length > 0 then parseGpuList drd.gpuList
      else populateGpuList diagResult
    let result := DcgmReturn.ok
    if result = .ok then getFailureResult iso diagResult else result

/-! Theorems settling the claims -/

/-- Bounded-recursion helper for `displayVerboseInfoChunks`: concatenating
the fragments gives back the message. -/
theorem displayVerboseInfoChunks_flatten_aux :
    ∀ (n : Nat) (info : List Char), info.length ≤ n →
      (displayVerboseInfoChunks info).flatten = info := by
  intro n
  induction n with
  | zero =>
    intro info hlen
    have hnil : info = [] := List.eq_nil_of_length_eq_zero (Nat.le_zero.mp hlen)
    subst hnil
    unfold displayVerboseInfoChunks
    simp
  | succ n ih =>
    intro info hlen
    unfold displayVerboseInfoChunks
    by_cases hnil : info = []
    · simp [hnil]
    · simp only [hnil, dite_false, List.flatten_cons]
      have hdrop : (info.drop DATA_INFO_TAG_LEN).length ≤ n := by
        simp only [List.length_drop, DATA_INFO_TAG_LEN]
        have : 0 < info.length := List.length_pos.mpr hnil
        omega
      rw [ih (info.drop DATA_INFO_TAG_LEN) hdrop]
      exact List.take_append_drop DATA_INFO_TAG_LEN info

/-- Claim C9: concatenating, in order, the 45-character-budget line fragments
that `DisplayVerboseInfo` emits for a message reconstructs the message
exactly. -/
theorem displayVerboseInfoChunks_flatten (info : List Char) :
    (displayVerboseInfoChunks info).flatten = info :=
  displayVerboseInfoChunks_flatten_aux info.length info (Nat.le_refl _)

/-- Claim C10: the status-to-string mapping shared by the text renderer and
the JSON renderer sends pass to "Pass", skip to "Skip", and every other
status — warn, fail and not-run alike — to "Fail"; in particular a cell
with warn status is rendered "Fail" by the text deployment renderer and by
the JSON per-GPU result renderer. -/
theorem helperDisplayDiagResult_mapping :
    helperDisplayDiagResult .pass = "Pass"
      ∧ helperDisplayDiagResult .skip = "Skip"
      ∧ helperDisplayDiagResult .warn = "Fail"
      ∧ helperDisplayDiagResult .fail = "Fail"
      ∧ helperDisplayDiagResult .notRun = "Fail"
      ∧ (∀ result : DcgmDiagTestResult, result.status = .warn →
          helperDisplayDeploymentResultStatus result = some "Fail"
            ∧ helperJsonAddResultStatus result = some "Fail") := by
  refine ⟨rfl, rfl, rfl, rfl, rfl, ?_⟩
  intro result hw
  constructor
  · simp [helperDisplayDeploymentResultStatus, hw, helperDisplayDiagResult]
  · simp [helperJsonAddResultStatus, hw, helperDisplayDiagResult]

/-- Witness for C10: the warn-status branch applied to a concrete cell. -/
theorem helperDisplayDiagResult_mapping_witness :
    helperDisplayDeploymentResultStatus { status := .warn, error := [], info := [] } = some "Fail"
      ∧ helperJsonAddResultStatus { status := .warn, error := [], info := [] } = some "Fail" :=
  helperDisplayDiagResult_mapping.2.2.2.2.2 { status := .warn, error := [], info := [] } rfl

/-- Claim C2: if the cancellation flag reads true at some round of the poll
loop while the run is still in flight (no earlier round saw the flag or an
exited executor), the supervisor reports `DCGM_ST_NVVS_KILLED` and issues
exactly one abort request; and the signal handler, invoked while not armed,
leaves the cancellation flag unchanged (so the run outcome, a function of
the observed flag trace, is unaffected). -/
theorem executeDiagPollLoop_cancellation :
    (∀ (trace : List PollObservation) (i : Nat), i < trace.length →
        (trace.getD i defaultPollObs).signalExit = true →
        (∀ j, j < i → (trace.getD j defaultPollObs).signalExit = false
            ∧ (trace.getD j defaultPollObs).hasExited = false) →
        executeDiagPollLoop trace = { result := some .nvvsKilled, abortCalls := 1 })
      ∧ ∀ signalExit : Bool, handleSignalDuringDiag false signalExit = signalExit := by
  constructor
  · intro trace
    induction trace with
    | nil =>
      intro i hi
      simp at hi
    | cons o rest ih =>
      intro i hi hsig hbefore
      cases i with
      | zero =>
        simp only [List.getD_cons_zero] at hsig
        unfold executeDiagPollLoop
        simp [hsig]
      | succ k =>
        have h0 := hbefore 0 (Nat.succ_pos k)
        simp only [List.getD_cons_zero] at h0
        unfold executeDiagPollLoop
        simp only [h0.1, h0.2, if_false, Bool.false_eq_true, ite_false]
        exact ih k (by simpa using hi) (by simpa using hsig)
          (fun j hj => by simpa using hbefore (j + 1) (Nat.succ_lt_succ hj))
  · intro signalExit
    rfl

/-- Witness for C2 at a concrete two-round trace: the flag turns on at the
second poll. -/
theorem executeDiagPollLoop_cancellation_witness :
    executeDiagPollLoop
        [defaultPollObs, { signalExit := true, hasExited := false, exitResult := .ok }]
      = { result := some .nvvsKilled, abortCalls := 1 }
      ∧ handleSignalDuringDiag false true = true := by
  constructor
  · exact executeDiagPollLoop_cancellation.1
      [defaultPollObs, { signalExit := true, hasExited := false, exitResult := .ok }] 1
      (by decide) (by decide)
      (fun j hj => by
        have hj0 : j = 0 := by omega
        subst hj0
        exact ⟨rfl, rfl⟩)
  · exact executeDiagPollLoop_cancellation.2 true

/-- The `runStartDiagLoop` when every stamped dispatch reports OK: all
`remaining` rounds run and the loop reports OK. -/
theorem stampEq (drd : DcgmRunDiag) (a b : Nat) (h : a = b) :
    ({ drd with currentIteration := a } : DcgmRunDiag)
      = { drd with currentIteration := b } := by
  rw [h]

theorem stampRangeShift (drd : DcgmRunDiag) (i n : Nat) :
    (List.range (n + 1)).map (fun j => { drd with currentIteration := i + j })
      = { drd with currentIteration := i }
        :: (List.range n).map (fun j => { drd with currentIteration := (i + 1) + j }) := by
  rw [List.range_succ_eq_map, List.map_cons, List.map_map]
  simp only [List.cons.injEq]
  refine ⟨stampEq drd _ _ (by omega), ?_⟩
  apply List.map_congr_left
  intro j _
  simp only [Function.comp_apply]
  exact stampEq drd _ _ (by omega)

theorem runStartDiagLoop_all_ok (runOnce : DcgmRunDiag → DcgmReturn) (drd : DcgmRunDiag) :
    ∀ (remaining i : Nat),
      (∀ j, j < remaining → runOnce { drd with currentIteration := i + j } = .ok) →
      runStartDiagLoop runOnce drd i remaining
        = ((List.range remaining).map (fun j => { drd with currentIteration := i + j }), .ok) := by
  intro remaining
  induction remaining with
  | zero =>
    intro i _
    simp [runStartDiagLoop]
  | succ r ih =>
    intro i hok
    have h0 : runOnce { drd with currentIteration := i } = .ok := by
      have := hok 0 (Nat.succ_pos r)
      simpa using this
    have hrest : ∀ j, j < r → runOnce { drd with currentIteration := (i + 1) + j } = .ok := by
      intro j hj
      have := hok (j + 1) (Nat.succ_lt_succ hj)
      have harith : i + (j + 1) = i + 1 + j := by omega
      rwa [harith] at this
    simp only [runStartDiagLoop]
    rw [if_pos h0, ih (i + 1) hrest, stampRangeShift drd i r]

/-- The `runStartDiagLoop` when the first non-OK outcome is at 0-based offset
`k`: exactly the first `k + 1` rounds run and the loop reports that
outcome. -/
theorem runStartDiagLoop_first_fail (runOnce : DcgmRunDiag → DcgmReturn) (drd : DcgmRunDiag) :
    ∀ (k remaining i : Nat), k < remaining →
      (∀ j, j < k → runOnce { drd with currentIteration := i + j } = .ok) →
      runOnce { drd with currentIteration := i + k } ≠ .ok →
      runStartDiagLoop runOnce drd i remaining
        = ((List.range (k + 1)).map (fun j => { drd with currentIteration := i + j }),
           runOnce { drd with currentIteration := i + k }) := by
  intro k
  induction k with
  | zero =>
    intro remaining i hlt _ hfail
    obtain ⟨r, rfl⟩ : ∃ r, remaining = r + 1 := ⟨remaining - 1, by omega⟩
    simp only [Nat.add_zero] at hfail
    simp only [runStartDiagLoop]
    rw [if_neg hfail]
    simp [List.range_succ]
  | succ k ih =>
    intro remaining i hlt hok hfail
    obtain ⟨r, rfl⟩ : ∃ r, remaining = r + 1 := ⟨remaining - 1, by omega⟩
    have h0 : runOnce { drd with currentIteration := i } = .ok := by
      have := hok 0 (Nat.succ_pos k)
      simpa using this
    have hok2 : ∀ j, j < k → runOnce { drd with currentIteration := (i + 1) + j } = .ok := by
      intro j hj
      have := hok (j + 1) (Nat.succ_lt_succ hj)
      have harith : i + (j + 1) = i + 1 + j := by omega
      rwa [harith] at this
    have hfail2 : runOnce { drd with currentIteration := (i + 1) + k } ≠ .ok := by
      have harith : i + 1 + k = i + (k + 1) := by omega
      rwa [harith]
    have hih := ih r (i + 1) (show k < r by omega) hok2 hfail2
    simp only [runStartDiagLoop]
    rw [if_pos h0, hih, stampRangeShift drd i (k + 1)]
    simp only [Prod.mk.injEq, List.cons.injEq]
    exact ⟨trivial, congrArg runOnce (stampEq drd _ _ (by omega))⟩

/-- Claim C7: for an iteration count `N ≤ 1`, `RunStartDiag` delegates to a
single `RunDiagOnce` on the unmodified request.  For `N > 1` it stamps the
total count and the 0-based index into the request before each dispatch;
with every outcome OK it executes all `N` iterations and reports OK, and
when the first non-OK outcome is at 0-based index `k` (iteration `k + 1`,
1-indexed) it executes exactly `k + 1` iterations and reports that code. -/
theorem runStartDiag_iterations (runOnce : DcgmRunDiag → DcgmReturn) (N : Nat)
    (drd : DcgmRunDiag) :
    (N ≤ 1 → runStartDiag runOnce N drd = ([drd], runOnce drd))
      ∧ (1 < N →
          (∀ j, j < N →
              runOnce { drd with totalIterations := N, currentIteration := j } = .ok) →
          runStartDiag runOnce N drd
            = ((List.range N).map
                 (fun j => { drd with totalIterations := N, currentIteration := j }), .ok))
      ∧ (1 < N → ∀ k, k < N →
          (∀ j, j < k →
              runOnce { drd with totalIterations := N, currentIteration := j } = .ok) →
          runOnce { drd with totalIterations := N, currentIteration := k } ≠ .ok →
          runStartDiag runOnce N drd
            = ((List.range (k + 1)).map
                 (fun j => { drd with totalIterations := N, currentIteration := j }),
               runOnce { drd with totalIterations := N, currentIteration := k })) := by
  refine ⟨?_, ?_, ?_⟩
  · intro hle
    unfold runStartDiag
    simp [hle]
  · intro hgt hok
    unfold runStartDiag
    rw [if_neg (by omega)]
    have := runStartDiagLoop_all_ok runOnce { drd with totalIterations := N } N 0
      (fun j hj => by simpa using hok j hj)
    simpa using this
  · intro hgt k hk hok hfail
    unfold runStartDiag
    rw [if_neg (by omega)]
    have := runStartDiagLoop_first_fail runOnce { drd with totalIterations := N } k N 0 hk
      (fun j hj => by simpa using hok j hj) (by simpa using hfail)
    simpa using this

/-- Witness for C7: three iterations with an injected failure at 0-based
index 1 execute exactly two dispatches and report the failing code. -/
theorem runStartDiag_iterations_witness :
    runStartDiag
        (fun d => if d.currentIteration = 1 then .nvvsError else .ok) 3
        { gpuList := [], currentIteration := 0, totalIterations := 0 }
      = ([{ gpuList := [], currentIteration := 0, totalIterations := 3 },
          { gpuList := [], currentIteration := 1, totalIterations := 3 }], .nvvsError) := by
  have h := (runStartDiag_iterations
      (fun d => if d.currentIteration = 1 then .nvvsError else .ok) 3
      { gpuList := [], currentIteration := 0, totalIterations := 0 }).2.2
      (by decide) 1 (by decide)
      (fun j hj => by
        have hj0 : j = 0 := by omega
        subst hj0
        decide)
      (by decide)
  simpa using h

/-- Claim C8: when the remote call reports OK but the response carries a
non-empty system-error message, `RunDiagOnce` in text mode reports the
generic `DCGM_ST_NVVS_ERROR` outcome; in JSON mode the special case does not
apply and the OK result proceeds to normal rendering and classification
(`GetFailureResult`). -/
theorem runDiagOnce_systemError_soft_failure (iso : Nat → Bool) (drd : DcgmRunDiag)
    (diagResult : DcgmDiagResponse) (hmsg : diagResult.systemErrorMsg ≠ []) :
    runDiagOnce iso false drd .ok diagResult = .nvvsError
      ∧ runDiagOnce iso true drd .ok diagResult = getFailureResult iso diagResult := by
  constructor
  · simp [runDiagOnce, hmsg]
  · simp [runDiagOnce]

/-- Witness for C8 at a concrete response whose system-error message is
"boom". -/
theorem runDiagOnce_systemError_soft_failure_witness :
    runDiagOnce (fun _ => false) false
        { gpuList := [], currentIteration := 0, totalIterations := 0 } .ok
        { gpuCount := 0, levelOneTestCount := 0, levelOneResults := [],
          perGpuResponses := [], systemErrorMsg := ['b', 'o', 'o', 'm'] }
      = .nvvsError
      ∧ runDiagOnce (fun _ => false) true
          { gpuList := [], currentIteration := 0, totalIterations := 0 } .ok
          { gpuCount := 0, levelOneTestCount := 0, levelOneResults := [],
            perGpuResponses := [], systemErrorMsg := ['b', 'o', 'o', 'm'] }
        = getFailureResult (fun _ => false)
            { gpuCount := 0, levelOneTestCount := 0, levelOneResults := [],
              perGpuResponses := [], systemErrorMsg := ['b', 'o', 'o', 'm'] } :=
  runDiagOnce_systemError_soft_failure (fun _ => false)
    { gpuList := [], currentIteration := 0, totalIterations := 0 }
    { gpuCount := 0, levelOneTestCount := 0, levelOneResults := [],
      perGpuResponses := [], systemErrorMsg := ['b', 'o', 'o', 'm'] }
    (by decide)

/-- The `errorSlotLoop` returns the isolate early-exit exactly when the code of some error
slot resolves to the isolate tier. -/
theorem errorSlotLoop_isolate (iso : Nat → Bool) :
    ∀ (errors : List DcgmDiagError) (ret : DcgmReturn),
      errors.any (fun e => iso e.code) = true →
      errorSlotLoop iso errors ret = .error .nvvsIsolateError := by
  intro errors
  induction errors with
  | nil =>
    intro ret h
    simp at h
  | cons e rest ih =>
    intro ret h
    unfold errorSlotLoop
    by_cases hc : iso e.code
    · simp [hc]
    · simp only [List.any_cons, Bool.or_eq_true] at h
      rcases h with h | h
      · exact absurd h hc
      · simp only [hc, if_false, Bool.false_eq_true, ite_false]
        exact ih .nvvsError h

/-- The `errorSlotLoop` without an isolate-tier slot: scanning a non-empty error
array downgrades the running result to `DCGM_ST_NVVS_ERROR`, an empty one
(impossible for the fixed-size C array) leaves it unchanged. -/
theorem errorSlotLoop_no_isolate (iso : Nat → Bool) :
    ∀ (errors : List DcgmDiagError) (ret : DcgmReturn),
      errors.any (fun e => iso e.code) = false →
      errorSlotLoop iso errors ret = .ok (if errors = [] then ret else .nvvsError) := by
  intro errors
  induction errors with
  | nil =>
    intro ret _
    simp [errorSlotLoop]
  | cons e rest ih =>
    intro ret h
    simp only [List.any_cons, Bool.or_eq_false_iff] at h
    unfold errorSlotLoop
    simp only [h.1, Bool.false_eq_true, ite_false, if_false]
    rw [ih .nvvsError h.2]
    simp [ite_self]

/-- Row scan of `GetFailureResult`: the isolate early exit fires exactly when
some failing cell of the row has an isolate-tier error; otherwise any
failing cell leaves `DCGM_ST_NVVS_ERROR`, otherwise the accumulator is kept. -/
theorem cellScanLoop_spec (iso : Nat → Bool) :
    ∀ (cells : List DcgmDiagTestResult) (ret : DcgmReturn),
      (∀ c ∈ cells, c.error ≠ []) →
      cellScanLoop iso cells ret =
        if cells.any (cellHasIsolate iso) then .error .nvvsIsolateError
        else .ok (if cells.any (fun c => c.status = .fail) then .nvvsError else ret) := by
  intro cells
  induction cells with
  | nil =>
    intro ret _
    simp [cellScanLoop]
  | cons c rest ih =>
    intro ret hwf
    have hwfc : c.error ≠ [] := hwf c (List.mem_cons_self c rest)
    have hwfr : ∀ x ∈ rest, x.error ≠ [] := fun x hx => hwf x (List.mem_cons_of_mem c hx)
    unfold cellScanLoop
    by_cases hf : c.status = .fail
    · by_cases hiso : c.error.any (fun e => iso e.code)
      · rw [if_pos hf, errorSlotLoop_isolate iso c.error ret hiso]
        have hchi : cellHasIsolate iso c = true := by
          simp [cellHasIsolate, hf, hiso]
        simp [hchi]
      · rw [if_pos hf,
          errorSlotLoop_no_isolate iso c.error ret (by simpa using hiso), if_neg hwfc]
        show cellScanLoop iso rest DcgmReturn.nvvsError = _
        rw [ih .nvvsError hwfr]
        have hchi : cellHasIsolate iso c = false := by
          simp only [cellHasIsolate, Bool.and_eq_false_iff]
          right
          simpa using hiso
        simp [hchi, hf, ite_self]
    · rw [if_neg hf]
      show cellScanLoop iso rest ret = _
      rw [ih ret hwfr]
      have hchi : cellHasIsolate iso c = false := by
        simp [cellHasIsolate, hf]
      simp [hchi, hf]

/-- Per-GPU scan of `GetFailureResult`, folding `cellScanLoop` over the
row of every slot. -/
theorem perGpuScanLoop_spec (iso : Nat → Bool) :
    ∀ (gpus : List DcgmDiagResponsePerGpu) (ret : DcgmReturn),
      (∀ g ∈ gpus, ∀ c ∈ g.results, c.error ≠ []) →
      perGpuScanLoop iso gpus ret =
        if gpus.any (fun g => g.results.any (cellHasIsolate iso)) then
          .error .nvvsIsolateError
        else
          .ok (if gpus.any (fun g => g.results.any (fun c => c.status = .fail)) then
            .nvvsError else ret) := by
  intro gpus
  induction gpus with
  | nil =>
    intro ret _
    simp [perGpuScanLoop]
  | cons g rest ih =>
    intro ret hwf
    have hwfg : ∀ c ∈ g.results, c.error ≠ [] := hwf g (List.mem_cons_self g rest)
    have hwfr : ∀ x ∈ rest, ∀ c ∈ x.results, c.error ≠ [] :=
      fun x hx => hwf x (List.mem_cons_of_mem g hx)
    unfold perGpuScanLoop
    rw [cellScanLoop_spec iso g.results ret hwfg]
    by_cases hgi : g.results.any (cellHasIsolate iso)
    · simp [hgi]
    · rw [if_neg hgi]
      show perGpuScanLoop iso rest
          (if g.results.any (fun c => c.status = .fail) then DcgmReturn.nvvsError else ret)
        = _
      rw [ih _ hwfr]
      simp only [List.any_cons, hgi, Bool.false_or]
      by_cases hri : rest.any (fun x => x.results.any (cellHasIsolate iso))
      · simp [hri]
      · simp only [hri, Bool.false_eq_true, ite_false]
        by_cases hgf : g.results.any (fun c => c.status = .fail)
        · simp [hgf, ite_self]
        · simp [hgf]

/-- Claim C1: `GetFailureResult` returns the isolate-error outcome exactly
when some failing cell anywhere in the scan (level-one results within the
declared count, or any per-GPU cell) carries an error resolving to the
isolate tier, independent of position and of other ordinary failures; with
failing cells but no isolate-tier error it returns the generic
`DCGM_ST_NVVS_ERROR`; with no failing cell it returns `DCGM_ST_OK`.  The
well-formedness hypothesis records the fixed `DCGM_MAX_ERRORS`-sized error
arrays of the C response struct. -/
theorem getFailureResult_classification (iso : Nat → Bool)
    (diagResult : DcgmDiagResponse) (hwf : DiagResponseWf diagResult) :
    getFailureResult iso diagResult =
      if respHasIsolate iso diagResult then .nvvsIsolateError
      else if respHasFailure diagResult then .nvvsError
      else .ok := by
  obtain ⟨hwf1, hwf2⟩ := hwf
  have hne : ∀ c ∈ diagResult.levelOneResults, c.error ≠ [] := by
    intro c hc hnil
    have := hwf1 c hc
    rw [hnil] at this
    simp [DCGM_MAX_ERRORS] at this
  have hne1 : ∀ c ∈ diagResult.levelOneResults.take diagResult.levelOneTestCount,
      c.error ≠ [] :=
    fun c hc => hne c ((List.take_sublist _ _).mem hc)
  have hne2 : ∀ g ∈ diagResult.perGpuResponses, ∀ c ∈ g.results, c.error ≠ [] := by
    intro g hg c hc hnil
    have := hwf2 g hg c hc
    rw [hnil] at this
    simp [DCGM_MAX_ERRORS] at this
  unfold getFailureResult respHasIsolate respHasFailure
  rw [cellScanLoop_spec iso _ .ok hne1]
  by_cases h1 : (diagResult.levelOneResults.take diagResult.levelOneTestCount).any
      (cellHasIsolate iso)
  · simp [h1]
  · rw [if_neg h1]
    show (match perGpuScanLoop iso diagResult.perGpuResponses
        (if (diagResult.levelOneResults.take diagResult.levelOneTestCount).any
            (fun c => c.status = .fail) then DcgmReturn.nvvsError else DcgmReturn.ok) with
      | Except.error e => e
      | Except.ok ret2 => ret2) = _
    rw [perGpuScanLoop_spec iso _ _ hne2]
    by_cases h2 : diagResult.perGpuResponses.any
        (fun g => g.results.any (cellHasIsolate iso))
    · simp [h1, h2]
    · simp only [h1, h2, Bool.or_self, Bool.false_eq_true, ite_false, Bool.false_or]
      by_cases h3 : (diagResult.levelOneResults.take diagResult.levelOneTestCount).any
          (fun c => c.status = .fail)
      · simp [h3, ite_self]
      · simp [h3]

/-- Concrete response for the C1 witness: one failing level-one cell whose
five error slots include code 3. -/
def c1WitnessResponse : DcgmDiagResponse :=
  { gpuCount := 0
    levelOneTestCount := 1
    levelOneResults := [{ status := .fail
                          error := [⟨1, []⟩, ⟨2, []⟩, ⟨3, []⟩, ⟨4, []⟩, ⟨5, []⟩]
                          info := [] }]
    perGpuResponses := []
    systemErrorMsg := [] }

/-- Witness for C1: with code 3 resolving to the isolate tier, the concrete
response classifies as isolate-error. -/
theorem getFailureResult_classification_witness :
    DiagResponseWf c1WitnessResponse
      ∧ getFailureResult (fun code => code == 3) c1WitnessResponse
          = (if respHasIsolate (fun code => code == 3) c1WitnessResponse
              then .nvvsIsolateError
              else if respHasFailure c1WitnessResponse then .nvvsError else .ok) :=
  ⟨by decide,
   getFailureResult_classification (fun code => code == 3) c1WitnessResponse (by decide)⟩

/-- The loop of `PopulateGpuList` collects, after a partial accumulator, the
next selectable slot indices until the `gpuCount` bound is reached. -/
theorem populateGpuListAux_take (gpuCount : Nat) :
    ∀ (slots : List DcgmDiagResponsePerGpu) (i : Nat) (acc : List Nat),
      acc.length ≤ gpuCount →
      populateGpuListAux gpuCount i slots acc
        = acc ++ (selectedSlotsFrom i slots).take (gpuCount - acc.length) := by
  intro slots
  induction slots with
  | nil =>
    intro i acc _
    simp [populateGpuListAux, selectedSlotsFrom]
  | cons g rest ih =>
    intro i acc hle
    unfold populateGpuListAux selectedSlotsFrom
    by_cases hlt : acc.length < gpuCount
    · rw [if_pos hlt]
      by_cases hid : g.gpuId ≠ DCGM_MAX_NUM_DEVICES
      · by_cases hran : someTestRan g
        · rw [if_pos hid, if_pos hran, if_pos ⟨hid, hran⟩]
          rw [ih (i + 1) (acc ++ [i]) (by simp; omega)]
          obtain ⟨m, hm⟩ : ∃ m, gpuCount - acc.length = m + 1 :=
            ⟨gpuCount - acc.length - 1, by omega⟩
          rw [hm, List.take_succ_cons]
          have hm2 : gpuCount - (acc ++ [i]).length = m := by
            simp only [List.length_append, List.length_cons, List.length_nil]
            omega
          rw [hm2, List.append_assoc]
          rfl
        · rw [if_pos hid, if_neg hran, if_neg (fun hand => hran hand.2)]
          exact ih (i + 1) acc hle
      · rw [if_neg hid, if_neg (fun hand => hid hand.1)]
        exact ih (i + 1) acc hle
    · rw [if_neg hlt]
      have hcnt : gpuCount - acc.length = 0 := by omega
      rw [hcnt, List.take_zero, List.append_nil]

/-- Claim C3, amended: with no explicit GPU filter, the derived GPU set is
the list of the first at-most-`gpuCount` per-GPU slot indices, in increasing
order, whose sentinel id was overwritten AND which have at least one test
result with a status other than not-run; in particular it never holds more
than `gpuCount` indices. -/
theorem populateGpuList_selected_take (diagResult : DcgmDiagResponse) :
    populateGpuList diagResult
        = (selectedSlotIndices diagResult).take diagResult.gpuCount
      ∧ (populateGpuList diagResult).length ≤ diagResult.gpuCount := by
  have h := populateGpuListAux_take diagResult.gpuCount diagResult.perGpuResponses 0 []
    (by simp)
  have h2 : populateGpuList diagResult
      = (selectedSlotIndices diagResult).take diagResult.gpuCount := by
    simpa [populateGpuList, selectedSlotIndices] using h
  refine ⟨h2, ?_⟩
  rw [h2]
  exact List.length_take_le _ _

/-- Concrete response refuting C3 as frozen: slot 0 overwrote the sentinel
id but none of its tests ran, so `PopulateGpuList` skips it. -/
def c3Response : DcgmDiagResponse :=
  { gpuCount := 1
    levelOneTestCount := 0
    levelOneResults := []
    perGpuResponses :=
      { gpuId := 0, results := List.replicate DCGM_PER_GPU_TEST_COUNT_V8 defaultTestResult }
        :: List.replicate (DCGM_MAX_NUM_DEVICES - 1)
            { gpuId := DCGM_MAX_NUM_DEVICES
              results := List.replicate DCGM_PER_GPU_TEST_COUNT_V8 defaultTestResult }
    systemErrorMsg := [] }

/-- Counterexample to C3 as frozen: the derived GPU set is NOT "exactly the
slot indices whose sentinel id was overwritten" — slot 0 is overwritten yet
unselected, because all of its per-test statuses are not-run. -/
theorem populateGpuList_counterexample :
    populateGpuList c3Response = []
      ∧ overwrittenSlotIndices c3Response = [0]
      ∧ populateGpuList c3Response ≠ overwrittenSlotIndices c3Response :=
  ⟨by decide, by decide, by decide⟩

/-- Folding `bucketStep` from any starting buckets appends, per bucket, the
ids of exactly the GPUs whose cell status matches that bucket. -/
theorem foldl_bucketStep (diagResults : List DcgmDiagResponsePerGpu) (ti : Nat) :
    ∀ (l : List Nat) (b : GpuBuckets),
      l.foldl (bucketStep diagResults ti) b =
        { passed := b.passed
            ++ (l.filter (fun i => cellStatusAt diagResults ti i = .pass)).map
                (gpuIdAt diagResults)
          failed := b.failed
            ++ (l.filter (fun i => cellStatusAt diagResults ti i = .fail)).map
                (gpuIdAt diagResults)
          skipped := b.skipped
            ++ (l.filter (fun i => cellStatusAt diagResults ti i = .skip)).map
                (gpuIdAt diagResults)
          warned := b.warned
            ++ (l.filter (fun i => cellStatusAt diagResults ti i = .warn)).map
                (gpuIdAt diagResults) } := by
  intro l
  induction l with
  | nil =>
    intro b
    simp
  | cons i l ih =>
    intro b
    rw [List.foldl_cons, ih (bucketStep diagResults ti b i)]
    rcases hst : cellStatusAt diagResults ti i with _ | _ | _ | _ | _ <;>
      simp [bucketStep, hst, List.filter_cons, List.append_assoc]

/-- The number of GPUs of the input set whose cell is one of the four
bucketed statuses equals the number whose cell status is not not-run. -/
theorem bucketStatusCount (diagResults : List DcgmDiagResponsePerGpu) (ti : Nat) :
    ∀ l : List Nat,
      (l.filter (fun i => cellStatusAt diagResults ti i = .pass)).length
          + (l.filter (fun i => cellStatusAt diagResults ti i = .fail)).length
          + (l.filter (fun i => cellStatusAt diagResults ti i = .warn)).length
          + (l.filter (fun i => cellStatusAt diagResults ti i = .skip)).length
        = (l.filter (fun i => cellStatusAt diagResults ti i ≠ .notRun)).length := by
  intro l
  induction l with
  | nil => simp
  | cons i l ih =>
    simp only [ne_eq, decide_not] at ih ⊢
    simp only [List.filter_cons]
    rcases hst : cellStatusAt diagResults ti i with _ | _ | _ | _ | _ <;>
      simp [hst] <;> omega

/-- Claim C4, amended: the four buckets of `HelperDisplayGpuResults`
partition the subset of the input GPU set whose cell status for the
(remapped) test lies in {pass, fail, warn, skip}: each bucket is exactly
the ids of the GPUs with the matching status, in input order, and the
bucket sizes sum to the number of input GPUs whose status is not not-run —
a GPU whose cell was never run appears in no bucket. -/
theorem helperDisplayGpuResultsBuckets_partition (testIndex : Nat)
    (diagResults : List DcgmDiagResponsePerGpu) (gpuIndices : List Nat) :
    (helperDisplayGpuResultsBuckets testIndex diagResults gpuIndices).passed
        = (gpuIndices.filter (fun i =>
            cellStatusAt diagResults
              (if testIndex = DCGM_CONTEXT_CREATE_INDEX then 0 else testIndex) i
              = .pass)).map (gpuIdAt diagResults)
      ∧ (helperDisplayGpuResultsBuckets testIndex diagResults gpuIndices).failed
          = (gpuIndices.filter (fun i =>
              cellStatusAt diagResults
                (if testIndex = DCGM_CONTEXT_CREATE_INDEX then 0 else testIndex) i
                = .fail)).map (gpuIdAt diagResults)
      ∧ (helperDisplayGpuResultsBuckets testIndex diagResults gpuIndices).warned
          = (gpuIndices.filter (fun i =>
              cellStatusAt diagResults
                (if testIndex = DCGM_CONTEXT_CREATE_INDEX then 0 else testIndex) i
                = .warn)).map (gpuIdAt diagResults)
      ∧ (helperDisplayGpuResultsBuckets testIndex diagResults gpuIndices).skipped
          = (gpuIndices.filter (fun i =>
              cellStatusAt diagResults
                (if testIndex = DCGM_CONTEXT_CREATE_INDEX then 0 else testIndex) i
                = .skip)).map (gpuIdAt diagResults)
      ∧ (helperDisplayGpuResultsBuckets testIndex diagResults gpuIndices).passed.length
            + (helperDisplayGpuResultsBuckets testIndex diagResults gpuIndices).failed.length
            + (helperDisplayGpuResultsBuckets testIndex diagResults gpuIndices).warned.length
            + (helperDisplayGpuResultsBuckets testIndex diagResults gpuIndices).skipped.length
          = (gpuIndices.filter (fun i =>
              cellStatusAt diagResults
                (if testIndex = DCGM_CONTEXT_CREATE_INDEX then 0 else testIndex) i
                ≠ .notRun)).length := by
  have h := foldl_bucketStep diagResults
    (if testIndex = DCGM_CONTEXT_CREATE_INDEX then 0 else testIndex) gpuIndices
    { passed := [], failed := [], skipped := [], warned := [] }
  have hb : helperDisplayGpuResultsBuckets testIndex diagResults gpuIndices
      = { passed := (gpuIndices.filter (fun i =>
            cellStatusAt diagResults
              (if testIndex = DCGM_CONTEXT_CREATE_INDEX then 0 else testIndex) i
              = .pass)).map (gpuIdAt diagResults)
          failed := (gpuIndices.filter (fun i =>
            cellStatusAt diagResults
              (if testIndex = DCGM_CONTEXT_CREATE_INDEX then 0 else testIndex) i
              = .fail)).map (gpuIdAt diagResults)
          skipped := (gpuIndices.filter (fun i =>
            cellStatusAt diagResults
              (if testIndex = DCGM_CONTEXT_CREATE_INDEX then 0 else testIndex) i
              = .skip)).map (gpuIdAt diagResults)
          warned := (gpuIndices.filter (fun i =>
            cellStatusAt diagResults
              (if testIndex = DCGM_CONTEXT_CREATE_INDEX then 0 else testIndex) i
              = .warn)).map (gpuIdAt diagResults) } := by
    unfold helperDisplayGpuResultsBuckets
    simpa using h
  rw [hb]
  simp only [List.length_map]
  refine ⟨trivial, trivial, trivial, trivial, ?_⟩
  exact bucketStatusCount diagResults
    (if testIndex = DCGM_CONTEXT_CREATE_INDEX then 0 else testIndex) gpuIndices

/-- Per-GPU rows refuting C4 as frozen: GPU slot 0 exists but its cell for
test 0 was never run. -/
def c4DiagResults : List DcgmDiagResponsePerGpu :=
  [{ gpuId := 0, results := List.replicate DCGM_PER_GPU_TEST_COUNT_V8 defaultTestResult }]

/-- Counterexample to C4 as frozen: GPU 0 is in the input set but lands in
none of the four buckets (its cell status is not-run), so the buckets do
not partition the input set. -/
theorem helperDisplayGpuResultsBuckets_counterexample :
    helperDisplayGpuResultsBuckets DCGM_MEMORY_INDEX c4DiagResults [0]
        = { passed := [], failed := [], skipped := [], warned := [] }
      ∧ ((helperDisplayGpuResultsBuckets DCGM_MEMORY_INDEX c4DiagResults [0]).passed.length
            + (helperDisplayGpuResultsBuckets DCGM_MEMORY_INDEX c4DiagResults [0]).failed.length
            + (helperDisplayGpuResultsBuckets DCGM_MEMORY_INDEX c4DiagResults [0]).warned.length
            + (helperDisplayGpuResultsBuckets DCGM_MEMORY_INDEX c4DiagResults [0]).skipped.length
          ≠ ([0] : List Nat).length) :=
  ⟨by decide, by decide⟩

/-- The cut stage of `Sanitize` on its own: the remainder after the first
`"***"`, or the whole string. -/
def sanitizeCut (s : List Char) : List Char :=
  match findSubstr sanitizeDelim s with
  | some pos => s.drop (pos + 3)
  | none => s

/-- The head of a `dropWhile` result never satisfies the predicate. -/
theorem dropWhile_head_false (p : Char → Bool) :
    ∀ (l : List Char) (x : Char), (l.dropWhile p).head? = some x → p x = false := by
  intro l
  induction l with
  | nil =>
    intro x h
    simp at h
  | cons c rest ih =>
    intro x h
    rw [List.dropWhile_cons] at h
    by_cases hc : p c
    · rw [if_pos hc] at h
      exact ih x h
    · rw [if_neg hc] at h
      simp only [List.head?_cons, Option.some.injEq] at h
      rw [← h]
      simpa using hc

/-- The `dropWhile` is the identity on a list whose head does not satisfy the
predicate. -/
theorem dropWhile_eq_self_of_head (p : Char → Bool) (l : List Char)
    (h : ∀ x, l.head? = some x → p x = false) : l.dropWhile p = l := by
  cases l with
  | nil => rfl
  | cons c rest =>
    have hc := h c rfl
    rw [List.dropWhile_cons, if_neg (by simp [hc])]

/-- The `dropWhile` is idempotent. -/
theorem dropWhile_idem (p : Char → Bool) (l : List Char) :
    (l.dropWhile p).dropWhile p = l.dropWhile p :=
  dropWhile_eq_self_of_head p _ (dropWhile_head_false p l)

/-- The head of an append with a non-empty left part is the left head. -/
theorem head?_append_left (l1 l2 : List Char) (h : l1 ≠ []) :
    (l1 ++ l2).head? = l1.head? := by
  cases l1 with
  | nil => exact absurd rfl h
  | cons c rest => rfl

/-- Trimming whitespace at the back and then at the front (the order the
source uses) equals trimming at the front and then at the back (the order
the spec words suggest). -/
theorem trim_commute (m : List Char) :
    ((m.reverse.dropWhile isWhitespace).reverse).dropWhile isWhitespace
      = ((m.dropWhile isWhitespace).reverse.dropWhile isWhitespace).reverse := by
  by_cases hd : m.dropWhile isWhitespace = []
  · have hall : ∀ x ∈ m, isWhitespace x := List.dropWhile_eq_nil_iff.mp hd
    have hrev : m.reverse.dropWhile isWhitespace = [] :=
      List.dropWhile_eq_nil_iff.mpr (fun x hx => hall x (List.mem_reverse.mp hx))
    rw [hd, hrev]
    simp
  · obtain ⟨x, hx⟩ : ∃ x, (m.dropWhile isWhitespace).head? = some x := by
      cases hdd : m.dropWhile isWhitespace with
      | nil => exact absurd hdd hd
      | cons c cs => exact ⟨c, rfl⟩
    have hxw : isWhitespace x = false := dropWhile_head_false isWhitespace m x hx
    have he_ne : (m.dropWhile isWhitespace).reverse.dropWhile isWhitespace ≠ [] := by
      intro he
      have hall : ∀ y ∈ (m.dropWhile isWhitespace).reverse, isWhitespace y :=
        List.dropWhile_eq_nil_iff.mp he
      have hxm : x ∈ m.dropWhile isWhitespace := List.mem_of_mem_head? hx
      have := hall x (List.mem_reverse.mpr hxm)
      rw [hxw] at this
      exact absurd this (by simp)
    have hsplit : m.takeWhile isWhitespace ++ m.dropWhile isWhitespace = m :=
      List.takeWhile_append_dropWhile isWhitespace m
    have hrw : m.reverse.dropWhile isWhitespace
        = (m.dropWhile isWhitespace).reverse.dropWhile isWhitespace
          ++ (m.takeWhile isWhitespace).reverse := by
      conv_lhs => rw [← hsplit]
      rw [List.reverse_append, List.dropWhile_append,
        if_neg (by simpa using he_ne)]
    have htake_nil : (m.takeWhile isWhitespace).dropWhile isWhitespace = [] :=
      List.dropWhile_eq_nil_iff.mpr (fun y hy => List.mem_takeWhile_imp hy)
    rw [hrw, List.reverse_append, List.reverse_reverse, List.dropWhile_append,
      if_pos (by simp [htake_nil])]
    have hlast : ∀ y,
        ((m.dropWhile isWhitespace).reverse.dropWhile isWhitespace).reverse.head? = some y →
          isWhitespace y = false := by
      intro y hy
      have hgl : ((m.dropWhile isWhitespace).reverse.dropWhile isWhitespace).reverse.head?
          = ((m.dropWhile isWhitespace).reverse.dropWhile isWhitespace).getLast? := by
        have := List.getLast?_reverse
          ((m.dropWhile isWhitespace).reverse.dropWhile isWhitespace).reverse
        rw [List.reverse_reverse] at this
        exact this.symm
      have hsuffix : (m.dropWhile isWhitespace).reverse.takeWhile isWhitespace
          ++ (m.dropWhile isWhitespace).reverse.dropWhile isWhitespace
          = (m.dropWhile isWhitespace).reverse :=
        List.takeWhile_append_dropWhile isWhitespace (m.dropWhile isWhitespace).reverse
      have hgl2 : ((m.dropWhile isWhitespace).reverse.dropWhile isWhitespace).getLast?
          = (m.dropWhile isWhitespace).reverse.getLast? := by
        conv_rhs => rw [← hsuffix]
        exact (List.getLast?_append_of_ne_nil _ he_ne).symm
      have hgl3 : (m.dropWhile isWhitespace).reverse.getLast?
          = (m.dropWhile isWhitespace).head? :=
        List.getLast?_reverse (m.dropWhile isWhitespace)
      rw [hgl, hgl2, hgl3, hx] at hy
      cases hy
      exact hxw
    exact dropWhile_eq_self_of_head isWhitespace _ hlast

/-- Claim C5, amended: `Sanitize` returns the substring after the FIRST
occurrence of the literal `"***"` delimiter when present (the whole string
otherwise), with leading and trailing whitespace (space, tab, newline,
carriage return, form feed) removed. -/
theorem sanitize_eq_first_occurrence_spec (s : List Char) :
    sanitize s = sanitizeFirstSpec s :=
  trim_commute (sanitizeCut s)

/-- Counterexample to C5 as frozen: on "a***b***c" the code keeps the text
after the FIRST delimiter ("b***c"), not the text after the last one ("c"). -/
theorem sanitize_last_occurrence_counterexample :
    sanitize ("a***b***c".toList) = "b***c".toList
      ∧ sanitizeLastSpec ("a***b***c".toList) = "c".toList
      ∧ sanitize ("a***b***c".toList) ≠ sanitizeLastSpec ("a***b***c".toList) :=
  ⟨by decide, by decide, by decide⟩

/-- The output of `Sanitize` never starts with whitespace. -/
theorem sanitize_trimmed_head (s : List Char) :
    ∀ x, (sanitize s).head? = some x → isWhitespace x = false := by
  intro x hx
  exact dropWhile_head_false isWhitespace
    ((sanitizeCut s).reverse.dropWhile isWhitespace).reverse x hx

/-- A `dropWhile` of a list whose last character is non-whitespace keeps a
non-whitespace last character (or comes out empty). -/
theorem trimmed_last_of_dropWhile (w t : List Char)
    (hw : ∀ y, w.reverse.head? = some y → isWhitespace y = false)
    (ht : t = w.dropWhile isWhitespace) :
    ∀ x, t.reverse.head? = some x → isWhitespace x = false := by
  intro x hx
  by_cases htn : t = []
  · rw [htn] at hx
    simp at hx
  · have hsplit : w.takeWhile isWhitespace ++ t = w := by
      rw [ht]
      exact List.takeWhile_append_dropWhile isWhitespace w
    have hrev : w.reverse = t.reverse ++ (w.takeWhile isWhitespace).reverse := by
      conv_lhs => rw [← hsplit]
      rw [List.reverse_append]
    have hne : t.reverse ≠ [] := by simpa using htn
    apply hw
    rw [hrev, head?_append_left _ _ hne]
    exact hx

/-- The output of `Sanitize` never ends with whitespace. -/
theorem sanitize_trimmed_last (s : List Char) :
    ∀ x, (sanitize s).reverse.head? = some x → isWhitespace x = false := by
  have hw : ∀ y, (((sanitizeCut s).reverse.dropWhile isWhitespace).reverse).reverse.head?
      = some y → isWhitespace y = false := by
    intro y hy
    rw [List.reverse_reverse] at hy
    exact dropWhile_head_false isWhitespace (sanitizeCut s).reverse y hy
  exact trimmed_last_of_dropWhile ((sanitizeCut s).reverse.dropWhile isWhitespace).reverse
    (sanitize s) hw rfl

/-- The `Sanitize` fixes any string that contains no delimiter, does not start
with whitespace and does not end with whitespace. -/
theorem sanitize_eq_self (t : List Char)
    (hdelim : findSubstr sanitizeDelim t = none)
    (hhead : ∀ x, t.head? = some x → isWhitespace x = false)
    (hlast : ∀ x, t.reverse.head? = some x → isWhitespace x = false) :
    sanitize t = t := by
  unfold sanitize
  rw [hdelim]
  show ((t.reverse.dropWhile isWhitespace).reverse).dropWhile isWhitespace = t
  rw [dropWhile_eq_self_of_head isWhitespace t.reverse hlast, List.reverse_reverse]
  exact dropWhile_eq_self_of_head isWhitespace t hhead

/-- Claim C6, amended: `Sanitize` is idempotent on every input whose
sanitized form no longer contains the `"***"` delimiter (for the first-occurrence
cut of the code, a second delimiter can survive the first pass and be
cut again, so full idempotence fails — see the counterexample). -/
theorem sanitize_idem_of_no_delim (s : List Char)
    (h : findSubstr sanitizeDelim (sanitize s) = none) :
    sanitize (sanitize s) = sanitize s :=
  sanitize_eq_self (sanitize s) h (sanitize_trimmed_head s) (sanitize_trimmed_last s)

/-- Witness for the amended C6 at a concrete input whose sanitized form is
delimiter-free. -/
theorem sanitize_idem_of_no_delim_witness :
    findSubstr sanitizeDelim (sanitize (" a***b \n".toList)) = none
      ∧ sanitize (sanitize (" a***b \n".toList)) = sanitize (" a***b \n".toList) :=
  ⟨by decide, sanitize_idem_of_no_delim (" a***b \n".toList) (by decide)⟩

/-- Counterexample to C6 as frozen: sanitizing "a***b***c" once yields
"b***c", which still contains the delimiter, so a second pass cuts again and
`Sanitize ∘ Sanitize ≠ Sanitize` there. -/
theorem sanitize_not_idempotent_counterexample :
    sanitize ("a***b***c".toList) = "b***c".toList
      ∧ sanitize (sanitize ("a***b***c".toList)) = "c".toList
      ∧ sanitize (sanitize ("a***b***c".toList)) ≠ sanitize ("a***b***c".toList) :=
  ⟨by decide, by decide, by decide⟩
